import Mathlib

/-
Verification of the retry/backoff utility in `src/toil/jobStores/utils.py`.

The source exposes:
  * `never(exception)` — the default retry predicate, constantly false;
  * `retry(delays, timeout, predicate)` — a generator of per-attempt context
    managers (guards); with `timeout > 0` it runs a loop that, on failure of
    the caller operation inside the guard, suppresses and sleeps when
    `time.time() + delay < expiration and predicate(e)` holds, else re-raises;
    with `timeout <= 0` it yields a single non-catching guard;
  * `log_component_failure` and `log_delete_completed` — logging helpers.

The shallow embedding below makes the caller/generator interaction explicit:
time is modelled as a rational clock, the caller script is a list of rounds
(each with the wall-clock duration of the operation and its outcome), and a
run produces a `Trace` recording how many guards were consumed, every sleep
performed, every invocation of the predicate, the configured delay of each
produced round, and the final result.
-/

namespace Toil

/-- Outcome of one caller operation executed inside an attempt guard:
either it returns normally or it raises an exception value of type `E`. -/
inductive Outcome (E : Type) where
  | success : Outcome E
  | failure : E → Outcome E
deriving DecidableEq, Repr

/-- Final result of a run of the retry loop:
`success` — some round completed without failure and the generator ended;
`raised e` — the exception `e` propagated to the caller;
`misuse` — the generator failed at first use because the delay schedule was
empty (the `next(delays)` call with no default);
`outOfFuel` — the caller script ended while the generator was still willing
to offer another guard (a modelling artefact for finite scripts). -/
inductive RunResult (E : Type) where
  | success : RunResult E
  | raised : E → RunResult E
  | misuse : RunResult E
  | outOfFuel : RunResult E
deriving DecidableEq, Repr

/-- Observable trace of one run of the retry generator together with its
caller: number of guards consumed by the caller, the list of sleeps performed
(in order, each entry the slept duration), the list of exception values passed
to the predicate (in order), the final result, and the delay each produced
round was configured with. -/
structure Trace (E : Type) where
  guards : ℕ
  sleeps : List ℚ
  predCalls : List E
  result : RunResult E
  roundDelays : List ℚ
deriving DecidableEq, Repr

/-- Source: `def never(exception): return False` — the default predicate. -/
def never {E : Type} (exception : E) : Bool :=
  false

/-- Source: the default delay schedule `(0, 1, 1, 4, 16, 64)`. -/
def defaultDelays : List ℚ :=
  [0, 1, 1, 4, 16, 64]

/-- Source: the default timeout `300` seconds. -/
def defaultTimeout : ℚ :=
  300

/-- How the guard body of `repeated_attempt` exited:
`cleared` — the scope completed without failure and the guard popped the `go`
flag; `suppressed` — the failure was caught, a retry notice logged and the
delay slept; `reraised e` — the failure `e` was re-raised unchanged. -/
inductive GuardExit (E : Type) where
  | cleared : GuardExit E
  | suppressed : GuardExit E
  | reraised : E → GuardExit E
deriving DecidableEq, Repr

/-- What one execution of a `repeated_attempt` guard did: how it exited,
which sleeps it performed, and which exception values it passed to the
predicate. -/
structure GuardResult (E : Type) where
  exit : GuardExit E
  slept : List ℚ
  predCalls : List E
deriving DecidableEq, Repr

/-- Source lines 87–98, the `repeated_attempt` context manager: on success it
pops the `go` flag; on failure `e` it checks
`time.time() + delay < expiration and predicate(e)` (with Python short-circuit
evaluation, so the predicate is only invoked when the deadline check passes),
and either sleeps `delay` and suppresses, or re-raises `e`.  `now` is the
value of `time.time()` at the moment the exception is handled. -/
def repeated_attempt {E : Type} (expiration : ℚ) (predicate : E → Bool)
    (delay : ℚ) (now : ℚ) (o : Outcome E) : GuardResult E :=
  match o with
  | Outcome.success => ⟨GuardExit.cleared, [], []⟩
  | Outcome.failure e =>
    if now + delay < expiration then
      if predicate e then ⟨GuardExit.suppressed, [delay], [e]⟩
      else ⟨GuardExit.reraised e, [], [e]⟩
    else ⟨GuardExit.reraised e, [], []⟩

/-- Source lines 106–111, the `single_attempt` context manager: it catches
nothing, so the outcome of the caller operation becomes the result verbatim. -/
def single_attempt {E : Type} (o : Outcome E) : RunResult E :=
  match o with
  | Outcome.success => RunResult.success
  | Outcome.failure e => RunResult.raised e

/-- Model of `next(delays, delay)` on the schedule iterator: take the next
element when one remains, otherwise keep the current `delay`. -/
def nextDelay (delay : ℚ) : List ℚ → ℚ × List ℚ
  | [] => (delay, [])
  | d :: ds => (d, ds)

/-- The `while go:` loop of `retry` for `timeout > 0` (source lines 100–105),
driven by the caller script `ops`.  State: the current round delay `delay`,
the not-yet-consumed tail `ds` of the schedule iterator, and the clock at the
moment the round's guard is yielded.  Each script entry `(dur, o)` says the
caller operation of that round takes `dur` seconds of wall clock and finishes
with outcome `o`.  When the script is exhausted while the loop would still
offer a guard, the trace ends in `outOfFuel`. -/
def retryLoop {E : Type} (expiration : ℚ) (predicate : E → Bool) :
    ℚ → List ℚ → ℚ → List (ℚ × Outcome E) → Trace E
  | _delay, _ds, _clock, [] => ⟨0, [], [], RunResult.outOfFuel, []⟩
  | delay, ds, clock, (dur, o) :: rest =>
    let g := repeated_attempt expiration predicate delay (clock + dur) o
    match g.exit with
    | GuardExit.cleared => ⟨1, g.slept, g.predCalls, RunResult.success, [delay]⟩
    | GuardExit.reraised e => ⟨1, g.slept, g.predCalls, RunResult.raised e, [delay]⟩
    | GuardExit.suppressed =>
      let nd := nextDelay delay ds
      let t := retryLoop expiration predicate nd.1 nd.2 (clock + dur + delay) rest
      ⟨t.guards + 1, g.slept ++ t.sleeps, g.predCalls ++ t.predCalls,
        t.result, delay :: t.roundDelays⟩

/-- The whole `retry` generator (source line 84 onwards) interacting with a
caller that iterates it, modelled as a run.  `t0` is `time.time()` when the
generator body first runs, so `expiration = t0 + timeout`.  For
`timeout > 0`, `delay = next(delays)` on an empty schedule fails before any
guard is yielded (`misuse`); otherwise the loop runs.  For `timeout <= 0`
exactly one non-catching `single_attempt` guard is yielded. -/
def retryRun {E : Type} (delays : List ℚ) (timeout : ℚ) (predicate : E → Bool)
    (t0 : ℚ) (ops : List (ℚ × Outcome E)) : Trace E :=
  if 0 < timeout then
    match delays with
    | [] => ⟨0, [], [], RunResult.misuse, []⟩
    | d :: ds => retryLoop (t0 + timeout) predicate d ds t0 ops
  else
    match ops with
    | [] => ⟨0, [], [], RunResult.outOfFuel, []⟩
    | (_dur, o) :: _rest => ⟨1, [], [], single_attempt o, []⟩

/-- The delay the schedule `d :: ds` assigns to round `i` (0-indexed): the
`i`-th element while one exists, afterwards the final element, reused. -/
def scheduleDelay (d : ℚ) (ds : List ℚ) (i : ℕ) : ℚ :=
  (d :: ds).getD i (ds.getLastD d)

/-- Severity of a log call in the logging helpers. -/
inductive LogLevel where
  | debug : LogLevel
  | info : LogLevel
  | error : LogLevel
deriving DecidableEq, Repr

/-- The messages emitted by `log_component_failure`, with their formatted-in
arguments kept as opaque payloads. -/
inductive ComponentFailureMsg (E N : Type) where
  | exceptionRaisedDuringDeletion : E → ComponentFailureMsg E N
  | tooManyAttemptsGivingUp : N → ComponentFailureMsg E N
  | retryingDeletion : N → ComponentFailureMsg E N
deriving DecidableEq, Repr

/-- One log line: a severity and a message. -/
structure LogEntry (M : Type) where
  level : LogLevel
  msg : M
deriving DecidableEq, Repr

/-- Source lines 114–122: `log_component_failure` always logs the exception
(`log.exception`, which logs at error severity), then either logs the give-up
message at error severity and returns `True` when `attemptNum >= maxAttempts`,
or logs the retrying message at debug severity and returns `False`.  The
source default for `maxAttempts` is `5`. -/
def log_component_failure {E N : Type} (e : E) (name : N)
    (attemptNum : ℤ) (maxAttempts : ℤ) :
    Bool × List (LogEntry (ComponentFailureMsg E N)) :=
  let head : LogEntry (ComponentFailureMsg E N) :=
    ⟨LogLevel.error, ComponentFailureMsg.exceptionRaisedDuringDeletion e⟩
  if attemptNum ≥ maxAttempts then
    (true, [head, ⟨LogLevel.error, ComponentFailureMsg.tooManyAttemptsGivingUp name⟩])
  else
    (false, [head, ⟨LogLevel.debug, ComponentFailureMsg.retryingDeletion name⟩])

/-- The source default for `maxAttempts` in `log_component_failure`. -/
def defaultMaxAttempts : ℤ :=
  5

/-- The messages emitted by `log_delete_completed`. -/
inductive DeleteCompletedMsg (L : Type) where
  | successfullyDeleted : L → DeleteCompletedMsg L
  | noJobStoreFound : L → DeleteCompletedMsg L
  | completedWithErrors : L → DeleteCompletedMsg L
deriving DecidableEq, Repr

/-- Source lines 125–132: `log_delete_completed` logs success at info severity
when `existed and not failure`, not-found at info severity when `not existed`,
and completed-with-errors at error severity when `failure` (reached only with
`existed` true). -/
def log_delete_completed {L : Type} (locator : L) (existed : Bool)
    (failure : Bool) : List (LogEntry (DeleteCompletedMsg L)) :=
  if existed && !failure then
    [⟨LogLevel.info, DeleteCompletedMsg.successfullyDeleted locator⟩]
  else if !existed then
    [⟨LogLevel.info, DeleteCompletedMsg.noJobStoreFound locator⟩]
  else if failure then
    [⟨LogLevel.error, DeleteCompletedMsg.completedWithErrors locator⟩]
  else
    []

/-! ### Step lemmas: one unfolding of the loop per caller round -/

/-- The loop yields nothing more once the caller script is exhausted. -/
theorem retryLoop_nil {E : Type} (expiration : ℚ) (predicate : E → Bool)
    (delay : ℚ) (ds : List ℚ) (clock : ℚ) :
    retryLoop expiration predicate delay ds clock ([] : List (ℚ × Outcome E)) =
      ⟨0, [], [], RunResult.outOfFuel, []⟩ :=
  rfl

/-- A round whose operation succeeds ends the run at once. -/
theorem retryLoop_cons_success {E : Type} (expiration : ℚ) (predicate : E → Bool)
    (delay : ℚ) (ds : List ℚ) (clock dur : ℚ) (rest : List (ℚ × Outcome E)) :
    retryLoop expiration predicate delay ds clock ((dur, Outcome.success) :: rest) =
      ⟨1, [], [], RunResult.success, [delay]⟩ := by
  simp [retryLoop, repeated_attempt]

/-- A failing round within the deadline and accepted by the predicate is
suppressed: the delay is slept and the loop continues on the rest. -/
theorem retryLoop_cons_fail_retry {E : Type} (expiration : ℚ) (predicate : E → Bool)
    (delay : ℚ) (ds : List ℚ) (clock dur : ℚ) (e : E) (rest : List (ℚ × Outcome E))
    (hc : clock + dur + delay < expiration) (hp : predicate e = true) :
    retryLoop expiration predicate delay ds clock ((dur, Outcome.failure e) :: rest) =
      ⟨(retryLoop expiration predicate (nextDelay delay ds).1 (nextDelay delay ds).2
          (clock + dur + delay) rest).guards + 1,
       delay :: (retryLoop expiration predicate (nextDelay delay ds).1 (nextDelay delay ds).2
          (clock + dur + delay) rest).sleeps,
       e :: (retryLoop expiration predicate (nextDelay delay ds).1 (nextDelay delay ds).2
          (clock + dur + delay) rest).predCalls,
       (retryLoop expiration predicate (nextDelay delay ds).1 (nextDelay delay ds).2
          (clock + dur + delay) rest).result,
       delay :: (retryLoop expiration predicate (nextDelay delay ds).1 (nextDelay delay ds).2
          (clock + dur + delay) rest).roundDelays⟩ := by
  simp [retryLoop, repeated_attempt, hc, hp]

/-- A failing round within the deadline but rejected by the predicate
re-raises the failure after consulting the predicate once. -/
theorem retryLoop_cons_fail_pred_false {E : Type} (expiration : ℚ) (predicate : E → Bool)
    (delay : ℚ) (ds : List ℚ) (clock dur : ℚ) (e : E) (rest : List (ℚ × Outcome E))
    (hc : clock + dur + delay < expiration) (hp : predicate e = false) :
    retryLoop expiration predicate delay ds clock ((dur, Outcome.failure e) :: rest) =
      ⟨1, [], [e], RunResult.raised e, [delay]⟩ := by
  simp [retryLoop, repeated_attempt, hc, hp]

/-- A failing round whose delay would overshoot the deadline re-raises the
failure without consulting the predicate. -/
theorem retryLoop_cons_fail_deadline {E : Type} (expiration : ℚ) (predicate : E → Bool)
    (delay : ℚ) (ds : List ℚ) (clock dur : ℚ) (e : E) (rest : List (ℚ × Outcome E))
    (hc : ¬ clock + dur + delay < expiration) :
    retryLoop expiration predicate delay ds clock ((dur, Outcome.failure e) :: rest) =
      ⟨1, [], [], RunResult.raised e, [delay]⟩ := by
  simp [retryLoop, repeated_attempt, hc]

/-- With a positive timeout and a non-empty schedule the run is the loop,
with the deadline fixed at `t0 + timeout`. -/
theorem retryRun_pos {E : Type} (d : ℚ) (ds : List ℚ) (timeout : ℚ)
    (predicate : E → Bool) (t0 : ℚ) (ops : List (ℚ × Outcome E)) (ht : 0 < timeout) :
    retryRun (d :: ds) timeout predicate t0 ops =
      retryLoop (t0 + timeout) predicate d ds t0 ops := by
  simp [retryRun, ht]

/-- With a positive timeout and an empty schedule the run dies at first use. -/
theorem retryRun_pos_nil {E : Type} (timeout : ℚ) (predicate : E → Bool)
    (t0 : ℚ) (ops : List (ℚ × Outcome E)) (ht : 0 < timeout) :
    retryRun ([] : List ℚ) timeout predicate t0 ops =
      ⟨0, [], [], RunResult.misuse, []⟩ := by
  simp [retryRun, ht]

/-- With a non-positive timeout the run is one `single_attempt` guard. -/
theorem retryRun_nonpos {E : Type} (delays : List ℚ) (timeout : ℚ)
    (predicate : E → Bool) (t0 dur : ℚ) (o : Outcome E)
    (rest : List (ℚ × Outcome E)) (ht : ¬ 0 < timeout) :
    retryRun delays timeout predicate t0 ((dur, o) :: rest) =
      ⟨1, [], [], single_attempt o, []⟩ := by
  simp [retryRun, ht]

/-- With a non-positive timeout and an empty caller script nothing happens. -/
theorem retryRun_nonpos_nil {E : Type} (delays : List ℚ) (timeout : ℚ)
    (predicate : E → Bool) (t0 : ℚ) (ht : ¬ 0 < timeout) :
    retryRun delays timeout predicate t0 ([] : List (ℚ × Outcome E)) =
      ⟨0, [], [], RunResult.outOfFuel, []⟩ := by
  simp [retryRun, ht]

/-! ### Invariant lemmas, by induction on the caller script -/

/-- Whenever the caller script still has a round, at least one guard is
consumed. -/
theorem retryLoop_guards_pos {E : Type} (expiration : ℚ) (predicate : E → Bool)
    (delay : ℚ) (ds : List ℚ) (clock dur : ℚ) (o : Outcome E)
    (rest : List (ℚ × Outcome E)) :
    1 ≤ (retryLoop expiration predicate delay ds clock ((dur, o) :: rest)).guards := by
  cases o with
  | success => rw [retryLoop_cons_success]
  | failure e =>
    by_cases hc : clock + dur + delay < expiration
    · cases hp : predicate e
      · rw [retryLoop_cons_fail_pred_false expiration predicate delay ds clock dur e rest hc hp]
      · rw [retryLoop_cons_fail_retry expiration predicate delay ds clock dur e rest hc hp]
        exact Nat.le_add_left 1 _
    · rw [retryLoop_cons_fail_deadline expiration predicate delay ds clock dur e rest hc]

/-- The loop never produces the `misuse` result. -/
theorem retryLoop_result_ne_misuse {E : Type} (expiration : ℚ) (predicate : E → Bool) :
    ∀ (ops : List (ℚ × Outcome E)) (delay : ℚ) (ds : List ℚ) (clock : ℚ),
      (retryLoop expiration predicate delay ds clock ops).result ≠ RunResult.misuse
  | [], delay, ds, clock => by rw [retryLoop_nil]; intro h; exact absurd h (by simp)
  | (dur, o) :: rest, delay, ds, clock => by
    cases o with
    | success => rw [retryLoop_cons_success]; intro h; exact absurd h (by simp)
    | failure e =>
      by_cases hc : clock + dur + delay < expiration
      · cases hp : predicate e
        · rw [retryLoop_cons_fail_pred_false expiration predicate delay ds clock dur e rest hc hp]
          intro h; exact absurd h (by simp)
        · rw [retryLoop_cons_fail_retry expiration predicate delay ds clock dur e rest hc hp]
          exact retryLoop_result_ne_misuse expiration predicate rest _ _ _
      · rw [retryLoop_cons_fail_deadline expiration predicate delay ds clock dur e rest hc]
        intro h; exact absurd h (by simp)

/-- Any exception the loop propagates is one the caller raised in some
round of the script: the loop synthesizes no failure value of its own. -/
theorem retryLoop_raised_mem {E : Type} (expiration : ℚ) (predicate : E → Bool) :
    ∀ (ops : List (ℚ × Outcome E)) (delay : ℚ) (ds : List ℚ) (clock : ℚ) (e : E),
      (retryLoop expiration predicate delay ds clock ops).result = RunResult.raised e →
      ∃ dur, (dur, Outcome.failure e) ∈ ops
  | [], delay, ds, clock, e => by rw [retryLoop_nil]; intro h; exact absurd h (by simp)
  | (dur, o) :: rest, delay, ds, clock, e => by
    cases o with
    | success => rw [retryLoop_cons_success]; intro h; exact absurd h (by simp)
    | failure e0 =>
      by_cases hc : clock + dur + delay < expiration
      · cases hp : predicate e0
        · rw [retryLoop_cons_fail_pred_false expiration predicate delay ds clock dur e0 rest hc hp]
          intro h
          refine ⟨dur, ?_⟩
          have he : e0 = e := by simpa using h
          subst he
          exact List.mem_cons_self _ _
        · rw [retryLoop_cons_fail_retry expiration predicate delay ds clock dur e0 rest hc hp]
          intro h
          obtain ⟨dur2, hmem⟩ := retryLoop_raised_mem expiration predicate rest _ _ _ e h
          exact ⟨dur2, List.mem_cons_of_mem _ hmem⟩
      · rw [retryLoop_cons_fail_deadline expiration predicate delay ds clock dur e0 rest hc]
        intro h
        refine ⟨dur, ?_⟩
        have he : e0 = e := by simpa using h
        subst he
        exact List.mem_cons_self _ _

/-- Advancing the schedule iterator by one shifts the per-round delay
assignment by one. -/
theorem scheduleDelay_shift (d : ℚ) (ds : List ℚ) (i : ℕ) :
    scheduleDelay (nextDelay d ds).1 (nextDelay d ds).2 i = scheduleDelay d ds (i + 1) := by
  cases ds with
  | nil =>
    simp only [nextDelay, scheduleDelay, List.getLastD]
    cases i with
    | zero => simp [List.getD]
    | succ j => simp [List.getD]
  | cons a as =>
    simp only [nextDelay, scheduleDelay]
    have hlast : (a :: as).getLastD d = as.getLastD a := List.getLastD_cons d a as
    rw [hlast]
    rfl

/-- Round `i` of the loop (0-indexed among the rounds actually produced) is
configured with the delay the schedule assigns to position `i`. -/
theorem retryLoop_roundDelays_getD {E : Type} (expiration : ℚ) (predicate : E → Bool) :
    ∀ (ops : List (ℚ × Outcome E)) (delay : ℚ) (ds : List ℚ) (clock : ℚ) (i : ℕ),
      i < (retryLoop expiration predicate delay ds clock ops).roundDelays.length →
      (retryLoop expiration predicate delay ds clock ops).roundDelays.getD i 0 =
        scheduleDelay delay ds i
  | [], delay, ds, clock, i => by rw [retryLoop_nil]; intro h; exact absurd h (by simp)
  | (dur, o) :: rest, delay, ds, clock, i => by
    cases o with
    | success =>
      rw [retryLoop_cons_success]
      intro h
      have hi : i = 0 := by simpa using Nat.lt_one_iff.mp (by simpa using h)
      subst hi
      simp [scheduleDelay, List.getD]
    | failure e =>
      by_cases hc : clock + dur + delay < expiration
      · cases hp : predicate e
        · rw [retryLoop_cons_fail_pred_false expiration predicate delay ds clock dur e rest hc hp]
          intro h
          have hi : i = 0 := by simpa using Nat.lt_one_iff.mp (by simpa using h)
          subst hi
          simp [scheduleDelay, List.getD]
        · rw [retryLoop_cons_fail_retry expiration predicate delay ds clock dur e rest hc hp]
          intro h
          cases i with
          | zero => simp [scheduleDelay, List.getD]
          | succ j =>
            have hj : j < (retryLoop expiration predicate (nextDelay delay ds).1
                (nextDelay delay ds).2 (clock + dur + delay) rest).roundDelays.length := by
              simpa using Nat.lt_of_succ_lt_succ (by simpa using h)
            have ih := retryLoop_roundDelays_getD expiration predicate rest
              (nextDelay delay ds).1 (nextDelay delay ds).2 (clock + dur + delay) j hj
            calc (delay :: (retryLoop expiration predicate (nextDelay delay ds).1
                    (nextDelay delay ds).2 (clock + dur + delay) rest).roundDelays).getD (j + 1) 0
                = (retryLoop expiration predicate (nextDelay delay ds).1
                    (nextDelay delay ds).2 (clock + dur + delay) rest).roundDelays.getD j 0 := by
                  simp [List.getD]
              _ = scheduleDelay (nextDelay delay ds).1 (nextDelay delay ds).2 j := ih
              _ = scheduleDelay delay ds (j + 1) := scheduleDelay_shift delay ds j
      · rw [retryLoop_cons_fail_deadline expiration predicate delay ds clock dur e rest hc]
        intro h
        have hi : i = 0 := by simpa using Nat.lt_one_iff.mp (by simpa using h)
        subst hi
        simp [scheduleDelay, List.getD]

/-! ### Claim theorems -/

/-- C1: for every call to `retry` with `timeout > 0`, when the operation
inside a yielded guard fails with exception `e`, the failure is suppressed
and another round offered (after blocking for exactly this round's delay) if
and only if `current_time + this_round_delay < deadline` and `predicate e`
holds; otherwise the exact exception value `e` is re-raised unchanged and no
further guards are produced.  The first conjunct fixes the deadline of such a
call at `t0 + timeout`; the remaining two settle an arbitrary yielded guard,
i.e. the loop at an arbitrary reachable state. -/
theorem retry_failure_decision {E : Type} (timeout : ℚ) (predicate : E → Bool)
    (d : ℚ) (ds : List ℚ) (t0 clock dur : ℚ) (e : E)
    (ops rest : List (ℚ × Outcome E)) (ht : 0 < timeout) :
    retryRun (d :: ds) timeout predicate t0 ops =
      retryLoop (t0 + timeout) predicate d ds t0 ops ∧
    (clock + dur + d < t0 + timeout ∧ predicate e = true →
      (retryLoop (t0 + timeout) predicate d ds clock
          ((dur, Outcome.failure e) :: rest)).sleeps.head? = some d ∧
      (2 ≤ (retryLoop (t0 + timeout) predicate d ds clock
          ((dur, Outcome.failure e) :: rest)).guards ∨
        (retryLoop (t0 + timeout) predicate d ds clock
          ((dur, Outcome.failure e) :: rest)).result = RunResult.outOfFuel)) ∧
    (¬ (clock + dur + d < t0 + timeout ∧ predicate e = true) →
      retryLoop (t0 + timeout) predicate d ds clock ((dur, Outcome.failure e) :: rest) =
        ⟨1, [], if clock + dur + d < t0 + timeout then [e] else [],
          RunResult.raised e, [d]⟩) := by
  refine ⟨retryRun_pos d ds timeout predicate t0 ops ht, ?_, ?_⟩
  · rintro ⟨hc, hp⟩
    rw [retryLoop_cons_fail_retry (t0 + timeout) predicate d ds clock dur e rest hc hp]
    refine ⟨rfl, ?_⟩
    cases rest with
    | nil =>
      right
      rw [retryLoop_nil]
    | cons r rs =>
      left
      obtain ⟨rdur, ro⟩ := r
      have hpos := retryLoop_guards_pos (t0 + timeout) predicate
        (nextDelay d ds).1 (nextDelay d ds).2 (clock + dur + d) rdur ro rs
      exact Nat.succ_le_succ hpos
  · intro hnot
    by_cases hc : clock + dur + d < t0 + timeout
    · have hp : predicate e = false := by
        cases hpe : predicate e
        · rfl
        · exact absurd ⟨hc, hpe⟩ hnot
      rw [retryLoop_cons_fail_pred_false (t0 + timeout) predicate d ds clock dur e rest hc hp,
        if_pos hc]
    · rw [retryLoop_cons_fail_deadline (t0 + timeout) predicate d ds clock dur e rest hc,
        if_neg hc]

/-- Witness for C1: a retried failure sleeps its round delay and is offered a
further round, and a failure rejected by `never` is re-raised verbatim. -/
theorem retry_failure_decision_witness :
    ((retryLoop ((0 : ℚ) + 100) (fun _ : Unit => true) 2 [] 0
        [(0, Outcome.failure ())]).sleeps.head? = some 2 ∧
      (2 ≤ (retryLoop ((0 : ℚ) + 100) (fun _ : Unit => true) 2 [] 0
          [(0, Outcome.failure ())]).guards ∨
        (retryLoop ((0 : ℚ) + 100) (fun _ : Unit => true) 2 [] 0
          [(0, Outcome.failure ())]).result = RunResult.outOfFuel)) ∧
    retryLoop ((0 : ℚ) + 1) (never (E := Unit)) 2 [] 0 [(0, Outcome.failure ())] =
      ⟨1, [], [], RunResult.raised (), [2]⟩ := by
  constructor
  · exact (retry_failure_decision 100 (fun _ : Unit => true) 2 [] 0 0 0 () [] []
      (by norm_num)).2.1 ⟨by norm_num, rfl⟩
  · have h := (retry_failure_decision 1 (never (E := Unit)) 2 [] 0 0 0 () [] []
      (by norm_num)).2.2 (by intro hcon; exact absurd hcon.2 (by simp [never]))
    have hif : ¬ ((0 : ℚ) + 0 + 2 < 0 + 1) := by norm_num
    rw [if_neg hif] at h
    exact h

/-- C2: for a timeout of exactly 0, `retry` yields exactly one guard with no
catching, no sleeping and no predicate evaluation: for every delay schedule
and predicate, a failure inside it propagates immediately and unchanged with
zero sleeps, and a success likewise consumes the single guard. -/
theorem retry_timeout_zero {E : Type} (delays : List ℚ) (predicate : E → Bool)
    (t0 dur : ℚ) (e : E) (rest : List (ℚ × Outcome E)) :
    retryRun delays 0 predicate t0 ((dur, Outcome.failure e) :: rest) =
      ⟨1, [], [], RunResult.raised e, []⟩ ∧
    retryRun delays 0 predicate t0 ((dur, Outcome.success) :: rest) =
      ⟨1, [], [], RunResult.success, []⟩ := by
  have ht : ¬ (0 : ℚ) < 0 := lt_irrefl 0
  exact ⟨retryRun_nonpos delays 0 predicate t0 dur (Outcome.failure e) rest ht,
    retryRun_nonpos delays 0 predicate t0 dur Outcome.success rest ht⟩

/-- C3: if the operation inside a guard completes without raising, no further
guard is produced: the run ends in success with no further sleep and no
propagated failure, at any loop state (hence at any round `k`), and likewise
on the non-positive-timeout path. -/
theorem retry_success_short_circuits {E : Type} (expiration : ℚ)
    (predicate : E → Bool) (delay : ℚ) (ds delays : List ℚ)
    (clock dur timeout t0 : ℚ) (rest : List (ℚ × Outcome E)) :
    retryLoop expiration predicate delay ds clock ((dur, Outcome.success) :: rest) =
      ⟨1, [], [], RunResult.success, [delay]⟩ ∧
    (0 < timeout →
      retryRun (delay :: ds) timeout predicate t0 ((dur, Outcome.success) :: rest) =
        ⟨1, [], [], RunResult.success, [delay]⟩) ∧
    (timeout ≤ 0 →
      retryRun delays timeout predicate t0 ((dur, Outcome.success) :: rest) =
        ⟨1, [], [], RunResult.success, []⟩) := by
  refine ⟨retryLoop_cons_success expiration predicate delay ds clock dur rest, ?_, ?_⟩
  · intro ht
    rw [retryRun_pos delay ds timeout predicate t0 _ ht,
      retryLoop_cons_success (t0 + timeout) predicate delay ds t0 dur rest]
  · intro ht
    rw [retryRun_nonpos delays timeout predicate t0 dur Outcome.success rest (not_lt.mpr ht)]
    rfl

/-- Witness for C3: a first-round success consumes one guard and terminates,
for a positive and for a zero timeout. -/
theorem retry_success_short_circuits_witness :
    retryRun ([2] : List ℚ) 7 (never (E := Unit)) 0 [(1, Outcome.success)] =
      ⟨1, [], [], RunResult.success, [2]⟩ ∧
    retryRun ([2] : List ℚ) 0 (never (E := Unit)) 0 [(1, Outcome.success)] =
      ⟨1, [], [], RunResult.success, []⟩ :=
  ⟨(retry_success_short_circuits 7 (never (E := Unit)) 2 [] [2] 0 1 7 0 []).2.1
      (by norm_num),
   (retry_success_short_circuits 7 (never (E := Unit)) 2 [] [2] 0 1 0 0 []).2.2
      (by norm_num)⟩

/-- C4: with the default predicate `never`, or any predicate that always
returns false, a retry sequence with nonzero timeout and nonzero delays
produces exactly one guard, and a failure raised inside it propagates
immediately with no retry and no sleep. -/
theorem retry_false_predicate {E : Type} (d : ℚ) (ds : List ℚ) (timeout : ℚ)
    (predicate : E → Bool) (t0 dur : ℚ) (e : E) (rest : List (ℚ × Outcome E))
    (ht : 0 < timeout) (hp : ∀ x, predicate x = false) :
    (retryRun (d :: ds) timeout predicate t0 ((dur, Outcome.failure e) :: rest)).guards = 1 ∧
    (retryRun (d :: ds) timeout predicate t0 ((dur, Outcome.failure e) :: rest)).sleeps = [] ∧
    (retryRun (d :: ds) timeout predicate t0
        ((dur, Outcome.failure e) :: rest)).result = RunResult.raised e ∧
    never e = false := by
  rw [retryRun_pos d ds timeout predicate t0 _ ht]
  by_cases hc : t0 + dur + d < t0 + timeout
  · rw [retryLoop_cons_fail_pred_false (t0 + timeout) predicate d ds t0 dur e rest hc (hp e)]
    exact ⟨rfl, rfl, rfl, rfl⟩
  · rw [retryLoop_cons_fail_deadline (t0 + timeout) predicate d ds t0 dur e rest hc]
    exact ⟨rfl, rfl, rfl, rfl⟩

/-- Witness for C4: with the source defaults (schedule, timeout 300,
predicate `never`) a failing first round is propagated at once. -/
theorem retry_false_predicate_witness :
    (retryRun defaultDelays defaultTimeout (never (E := Unit)) 0
        [(0, Outcome.failure ())]).guards = 1 ∧
    (retryRun defaultDelays defaultTimeout (never (E := Unit)) 0
        [(0, Outcome.failure ())]).sleeps = [] ∧
    (retryRun defaultDelays defaultTimeout (never (E := Unit)) 0
        [(0, Outcome.failure ())]).result = RunResult.raised () ∧
    never () = false :=
  retry_false_predicate 0 [1, 1, 4, 16, 64] defaultTimeout (never (E := Unit)) 0 0 () []
    (by norm_num [defaultTimeout]) (fun _ => rfl)

/-- C5: for a non-empty finite schedule and positive timeout, round `i`
(0-indexed) of the produced rounds is configured with the schedule's `i`-th
value while one exists and with the schedule's final value afterwards. -/
theorem retry_delay_schedule {E : Type} (d : ℚ) (ds : List ℚ) (timeout : ℚ)
    (predicate : E → Bool) (t0 : ℚ) (ops : List (ℚ × Outcome E)) (i : ℕ)
    (ht : 0 < timeout)
    (h : i < (retryRun (d :: ds) timeout predicate t0 ops).roundDelays.length) :
    (retryRun (d :: ds) timeout predicate t0 ops).roundDelays.getD i 0 =
      scheduleDelay d ds i ∧
    scheduleDelay d ds i = (d :: ds).getD i (ds.getLastD d) ∧
    ((d :: ds).length ≤ i → scheduleDelay d ds i = ds.getLastD d) := by
  rw [retryRun_pos d ds timeout predicate t0 ops ht] at h ⊢
  refine ⟨retryLoop_roundDelays_getD (t0 + timeout) predicate ops d ds t0 i h, rfl, ?_⟩
  intro hle
  exact List.getD_eq_default (d :: ds) (ds.getLastD d) hle

/-- Witness for C5: with schedule `[2, 3]` and four produced rounds, the
fourth round reuses the final schedule value. -/
theorem retry_delay_schedule_witness :
    (retryRun ([2, 3] : List ℚ) 10 (fun _ : Unit => true) 0
        [(0, Outcome.failure ()), (0, Outcome.failure ()), (0, Outcome.failure ()),
          (0, Outcome.success)]).roundDelays.getD 3 0 = scheduleDelay 2 [3] 3 ∧
    scheduleDelay 2 [3] 3 = ([2, 3] : List ℚ).getD 3 (([3] : List ℚ).getLastD 2) ∧
    (([2, 3] : List ℚ).length ≤ 3 → scheduleDelay 2 [3] 3 = ([3] : List ℚ).getLastD 2) :=
  retry_delay_schedule 2 [3] 10 (fun _ : Unit => true) 0
    [(0, Outcome.failure ()), (0, Outcome.failure ()), (0, Outcome.failure ()),
      (0, Outcome.success)] 3 (by norm_num)
    (by simp only [retryRun, retryLoop, repeated_attempt, nextDelay]; norm_num)

/-- C6: calling `retry` with an empty delay schedule and positive timeout
fails fatally at first use, before any guard is yielded, and this is the only
failure condition synthesized by the core itself: any exception the run
propagates was raised by the caller in some round. -/
theorem retry_misuse_only {E : Type} (delays : List ℚ) (timeout : ℚ)
    (predicate : E → Bool) (t0 : ℚ) (ops : List (ℚ × Outcome E)) :
    ((retryRun delays timeout predicate t0 ops).result = RunResult.misuse ↔
      delays = [] ∧ 0 < timeout) ∧
    (delays = [] → 0 < timeout →
      retryRun delays timeout predicate t0 ops = ⟨0, [], [], RunResult.misuse, []⟩) ∧
    (∀ e : E, (retryRun delays timeout predicate t0 ops).result = RunResult.raised e →
      ∃ dur, (dur, Outcome.failure e) ∈ ops) := by
  by_cases ht : 0 < timeout
  · cases delays with
    | nil =>
      rw [retryRun_pos_nil timeout predicate t0 ops ht]
      refine ⟨by simp [ht], fun _ _ => rfl, ?_⟩
      intro e h
      exact absurd h (by simp)
    | cons d ds =>
      rw [retryRun_pos d ds timeout predicate t0 ops ht]
      refine ⟨?_, ?_, ?_⟩
      · constructor
        · intro h
          exact absurd h (retryLoop_result_ne_misuse (t0 + timeout) predicate ops d ds t0)
        · rintro ⟨h, _⟩
          exact absurd h (by simp)
      · rintro h _
        exact absurd h (by simp)
      · intro e h
        exact retryLoop_raised_mem (t0 + timeout) predicate ops d ds t0 e h
  · cases ops with
    | nil =>
      rw [retryRun_nonpos_nil delays timeout predicate t0 ht]
      refine ⟨by simp [ht], ?_, ?_⟩
      · intro _ h0
        exact absurd h0 ht
      · intro e h
        exact absurd h (by simp)
    | cons p rest =>
      obtain ⟨dur, o⟩ := p
      rw [retryRun_nonpos delays timeout predicate t0 dur o rest ht]
      refine ⟨?_, ?_, ?_⟩
      · cases o <;> simp [single_attempt, ht]
      · intro _ h0
        exact absurd h0 ht
      · intro e h
        cases o with
        | success => exact absurd h (by simp [single_attempt])
        | failure e0 =>
          have he : e0 = e := by simpa [single_attempt] using h
          subst he
          exact ⟨dur, List.mem_cons_self _ _⟩

/-- Witness for C6: an empty schedule with positive timeout dies at first use
with no guard produced. -/
theorem retry_misuse_only_witness :
    retryRun ([] : List ℚ) 5 (never (E := Unit)) 0 [] =
      ⟨0, [], [], RunResult.misuse, []⟩ :=
  (retry_misuse_only [] 5 (never (E := Unit)) 0 []).2.1 rfl (by norm_num)

/-- C7: `log_component_failure` returns the give-up decision `true` exactly
when `attemptNum >= maxAttempts` (source default 5); on `true` it logs the
give-up message at error severity and on `false` the retrying message at
debug severity (always after the unconditional exception log line, which
`log.exception` emits at error severity). -/
theorem log_component_failure_spec {E N : Type} (e : E) (name : N)
    (attemptNum maxAttempts : ℤ) :
    ((log_component_failure e name attemptNum maxAttempts).1 = true ↔
      maxAttempts ≤ attemptNum) ∧
    (maxAttempts ≤ attemptNum →
      (log_component_failure e name attemptNum maxAttempts).2 =
        [⟨LogLevel.error, ComponentFailureMsg.exceptionRaisedDuringDeletion e⟩,
         ⟨LogLevel.error, ComponentFailureMsg.tooManyAttemptsGivingUp name⟩]) ∧
    (attemptNum < maxAttempts →
      (log_component_failure e name attemptNum maxAttempts).2 =
        [⟨LogLevel.error, ComponentFailureMsg.exceptionRaisedDuringDeletion e⟩,
         ⟨LogLevel.debug, ComponentFailureMsg.retryingDeletion name⟩]) ∧
    defaultMaxAttempts = 5 := by
  by_cases h : attemptNum ≥ maxAttempts
  · refine ⟨by simp [log_component_failure, h], fun _ => by simp [log_component_failure, h], ?_, rfl⟩
    intro h2
    exact absurd h (not_le.mpr h2)
  · refine ⟨by simp [log_component_failure, h], ?_, fun _ => by simp [log_component_failure, h], rfl⟩
    intro h2
    exact absurd h2 h

/-- Witness for C7: at the default cap, attempt 5 gives up at error severity. -/
theorem log_component_failure_spec_witness :
    (log_component_failure () (7 : ℕ) 5 5).2 =
      [⟨LogLevel.error, ComponentFailureMsg.exceptionRaisedDuringDeletion ()⟩,
       ⟨LogLevel.error, ComponentFailureMsg.tooManyAttemptsGivingUp (7 : ℕ)⟩] :=
  (log_component_failure_spec () (7 : ℕ) 5 5).2.1 (by norm_num)

/-- C8: for every combination of `existed` and `failure`,
`log_delete_completed` emits exactly one of three mutually exclusive
messages: not-found at info severity when `existed` is false, success at info
severity when `existed` and not `failure`, and completed-with-errors at error
severity when `existed` and `failure`. -/
theorem log_delete_completed_spec {L : Type} (locator : L) (existed failure : Bool) :
    log_delete_completed locator existed failure =
      (if existed = false then
        [⟨LogLevel.info, DeleteCompletedMsg.noJobStoreFound locator⟩]
      else if failure = false then
        [⟨LogLevel.info, DeleteCompletedMsg.successfullyDeleted locator⟩]
      else
        [⟨LogLevel.error, DeleteCompletedMsg.completedWithErrors locator⟩]) ∧
    (log_delete_completed locator existed failure).length = 1 := by
  cases existed <;> cases failure <;> simp [log_delete_completed]

/-- C9: for every strictly negative timeout, `retry` behaves identically to
timeout 0: the run is unchanged by replacing the timeout with 0, it yields
exactly one non-catching guard for any schedule and predicate, and the
empty-schedule misuse failure is never raised. -/
theorem retry_negative_timeout {E : Type} (delays : List ℚ) (timeout : ℚ)
    (predicate : E → Bool) (t0 dur : ℚ) (o : Outcome E)
    (rest ops : List (ℚ × Outcome E)) (ht : timeout < 0) :
    retryRun delays timeout predicate t0 ops = retryRun delays 0 predicate t0 ops ∧
    retryRun delays timeout predicate t0 ((dur, o) :: rest) =
      ⟨1, [], [], single_attempt o, []⟩ ∧
    (retryRun delays timeout predicate t0 ops).result ≠ RunResult.misuse := by
  have ht1 : ¬ (0 : ℚ) < timeout := not_lt.mpr (le_of_lt ht)
  have ht0 : ¬ (0 : ℚ) < 0 := lt_irrefl 0
  refine ⟨?_, retryRun_nonpos delays timeout predicate t0 dur o rest ht1, ?_⟩
  · cases ops with
    | nil =>
      rw [retryRun_nonpos_nil delays timeout predicate t0 ht1,
        retryRun_nonpos_nil delays 0 predicate t0 ht0]
    | cons p rest2 =>
      obtain ⟨dur2, o2⟩ := p
      rw [retryRun_nonpos delays timeout predicate t0 dur2 o2 rest2 ht1,
        retryRun_nonpos delays 0 predicate t0 dur2 o2 rest2 ht0]
  · cases ops with
    | nil =>
      rw [retryRun_nonpos_nil delays timeout predicate t0 ht1]
      simp
    | cons p rest2 =>
      obtain ⟨dur2, o2⟩ := p
      rw [retryRun_nonpos delays timeout predicate t0 dur2 o2 rest2 ht1]
      cases o2 <;> simp [single_attempt]

/-- Witness for C9: timeout `-3` behaves exactly like timeout `0`, even on an
empty schedule. -/
theorem retry_negative_timeout_witness :
    retryRun ([] : List ℚ) (-3) (never (E := Unit)) 0 [(0, Outcome.failure ())] =
      retryRun ([] : List ℚ) 0 (never (E := Unit)) 0 [(0, Outcome.failure ())] ∧
    retryRun ([] : List ℚ) (-3) (never (E := Unit)) 0 [(0, Outcome.failure ())] =
      ⟨1, [], [], RunResult.raised (), []⟩ ∧
    (retryRun ([] : List ℚ) (-3) (never (E := Unit)) 0
        [(0, Outcome.failure ())]).result ≠ RunResult.misuse :=
  retry_negative_timeout [] (-3) (never (E := Unit)) 0 0 (Outcome.failure ()) []
    [(0, Outcome.failure ())] (by norm_num)

/-- C10: past the deadline the predicate is irrelevant and never invoked: a
failing round whose `current_time + delay` reaches the deadline produces the
same guard behaviour and the same loop trace for any two predicates — the
exception is re-raised with no sleep and with an empty list of predicate
invocations. -/
theorem retry_deadline_short_circuit {E : Type} (expiration : ℚ)
    (p1 p2 : E → Bool) (delay : ℚ) (ds : List ℚ) (clock dur : ℚ) (e : E)
    (rest : List (ℚ × Outcome E)) (hc : ¬ clock + dur + delay < expiration) :
    repeated_attempt expiration p1 delay (clock + dur) (Outcome.failure e) =
      ⟨GuardExit.reraised e, [], []⟩ ∧
    retryLoop expiration p1 delay ds clock ((dur, Outcome.failure e) :: rest) =
      retryLoop expiration p2 delay ds clock ((dur, Outcome.failure e) :: rest) ∧
    retryLoop expiration p1 delay ds clock ((dur, Outcome.failure e) :: rest) =
      ⟨1, [], [], RunResult.raised e, [delay]⟩ := by
  refine ⟨?_, ?_, retryLoop_cons_fail_deadline expiration p1 delay ds clock dur e rest hc⟩
  · simp [repeated_attempt, hc]
  · rw [retryLoop_cons_fail_deadline expiration p1 delay ds clock dur e rest hc,
      retryLoop_cons_fail_deadline expiration p2 delay ds clock dur e rest hc]

/-- Witness for C10: with the deadline already unreachable, an always-true
and an always-false predicate give the same immediate re-raise. -/
theorem retry_deadline_short_circuit_witness :
    repeated_attempt (1 : ℚ) (fun _ : Unit => true) 5 (0 + 0) (Outcome.failure ()) =
      ⟨GuardExit.reraised (), [], []⟩ ∧
    retryLoop (1 : ℚ) (fun _ : Unit => true) 5 [] 0 [(0, Outcome.failure ())] =
      retryLoop (1 : ℚ) (fun _ : Unit => false) 5 [] 0 [(0, Outcome.failure ())] ∧
    retryLoop (1 : ℚ) (fun _ : Unit => true) 5 [] 0 [(0, Outcome.failure ())] =
      ⟨1, [], [], RunResult.raised (), [5]⟩ :=
  retry_deadline_short_circuit 1 (fun _ : Unit => true) (fun _ : Unit => false) 5 [] 0 0 () []
    (by norm_num)

end Toil
